import Mathlib

/-!
Verification of the interactive-window contribution
(`src/vs/workbench/contrib/interactive/browser/interactive.contribution.ts`).

The file embeds, shallowly, the parts of the contribution that the claims
are about:

* the backup/restore codec of the notebook content provider
  (`controller.backup`, `controller.open`);
* the `interactive.execute`, `interactive.history.previous` and
  `interactive.history.next` commands;
* the fresh-identifier minting loop of `interactive.open`;
* the `InteractiveEditorSerializer`.

JSON values produced by `JSON.parse` (and consumed by `JSON.stringify`)
are modelled by the inductive `Json` below.  The platform pair
`JSON.parse ∘ JSON.stringify` is the identity on such trees, so the
byte-buffer handed from `backup` to `open` is modelled by the tree itself;
a buffer whose text is not valid JSON (`JSON.parse` throws) is modelled
by `Option.none`.
-/

/-- A JSON value as returned by `JSON.parse`: null, booleans, numbers
(the codec only ever produces integers), strings, arrays and objects. -/
inductive Json where
  | null : Json
  | bool (b : Bool) : Json
  | num (n : Int) : Json
  | str (s : String) : Json
  | arr (xs : List Json) : Json
  | obj (fields : List (String × Json)) : Json

/-- Object property lookup; `JSON.parse` keeps the last occurrence of a
duplicated key, so the last binding wins. -/
def jlookup : List (String × Json) → String → Option Json
  | [], _ => none
  | (k, v) :: rest, key =>
      match jlookup rest key with
      | some r => some r
      | none => if k = key then some v else none

/-- JavaScript property read `x.k` on a parsed JSON value: reading a
property of `null` throws a TypeError (`Except.error`), objects yield the
bound value or `undefined` (`none`), and every other value (primitives,
arrays) yields `undefined` for the property names the codec reads. -/
def getField : Json → String → Except Unit (Option Json)
  | Json.null, _ => Except.error ()
  | Json.obj fs, k => Except.ok (jlookup fs k)
  | _, _ => Except.ok none

/-- JavaScript truthiness of a possibly-`undefined` parsed JSON value,
as used by `cell.outputs ? … : []`. -/
def truthy : Option Json → Bool
  | none => false
  | some Json.null => false
  | some (Json.bool b) => b
  | some (Json.num n) => n != 0
  | some (Json.str s) => s != ""
  | some (Json.arr _) => true
  | some (Json.obj _) => true

lemma emod256_toNat_lt (n : Int) : (n % 256).toNat < 256 := by
  have h1 := Int.emod_nonneg n (by decide : (256 : Int) ≠ 0)
  have h2 := Int.emod_lt_of_pos n (by decide : (0 : Int) < 256)
  omega

/-- A decimal digit character, used when converting characters back to
numbers (`Number('7') = 7`, non-digits give NaN, and `ToUint8 NaN = 0`). -/
def charByte (c : Char) : Fin 256 :=
  if h : 48 ≤ c.toNat ∧ c.toNat ≤ 57 then ⟨c.toNat - 48, by omega⟩ else ⟨0, by omega⟩

/-- The element conversion performed by `Uint8Array.from`: `ToNumber`
followed by `ToUint8` (truncation modulo 2^8; `NaN` becomes 0).  String
coercion is modelled for single integer literals; the backup codec only
ever produces integers in `[0, 256)`. -/
def jsToUint8 : Json → Fin 256
  | Json.num n => ⟨(n % 256).toNat, emod256_toNat_lt n⟩
  | Json.bool true => ⟨1, by omega⟩
  | Json.bool false => ⟨0, by omega⟩
  | Json.null => ⟨0, by omega⟩
  | Json.str s => ⟨((s.trim.toInt?.getD 0) % 256).toNat, emod256_toNat_lt _⟩
  | Json.arr _ => ⟨0, by omega⟩
  | Json.obj _ => ⟨0, by omega⟩

/-- Model of `Uint8Array.from(x)`: throws on `undefined` and `null`; converts an
array element-wise; iterates a string character-wise; numbers and booleans
are not iterable and have no `length`, giving an empty array, and plain
parsed objects without a numeric `length` likewise give an empty array
(the codec only ever passes arrays of integers here). -/
def uint8ArrayFrom : Option Json → Except Unit (List (Fin 256))
  | none => Except.error ()
  | some Json.null => Except.error ()
  | some (Json.arr xs) => Except.ok (xs.map jsToUint8)
  | some (Json.str s) => Except.ok (s.data.map charByte)
  | some (Json.num _) => Except.ok []
  | some (Json.bool _) => Except.ok []
  | some (Json.obj _) => Except.ok []

/-- Model of `Array.prototype.map` with a fallible body: a thrown TypeError inside
any element aborts the whole `open` try-block. -/
def mapE (f : α → Except Unit β) : List α → Except Unit (List β)
  | [] => Except.ok []
  | x :: xs => do
      let y ← f x
      let ys ← mapE f xs
      pure (y :: ys)

/-- The `CellKind` enum from `notebookCommon`: `Markup = 1`, `Code = 2`. -/
inductive CellKind where
  | markup : CellKind
  | code : CellKind
deriving DecidableEq

def CellKind.toNat : CellKind → Nat
  | CellKind.markup => 1
  | CellKind.code => 2

/-- One output item of a cell output (`IOutputItemDto`): a mime type and
binary data (a `Uint8Array`, i.e. a sequence of bytes). -/
structure OutputItemModel where
  mime : String
  data : List (Fin 256)

/-- One cell output (`ICellOutput`): an output id and its output items. -/
structure CellOutputModel where
  outputId : String
  outputs : List OutputItemModel

/-- A live notebook cell as read by `controller.backup`: `cell.cellKind`,
`cell.language`, `cell.metadata` (an opaque JSON-serialisable value),
`cell.mime` (possibly `undefined`), `cell.outputs` and `cell.getValue()`. -/
structure NotebookCellModel where
  cellKind : CellKind
  language : String
  metadata : Json
  mime : Option String
  outputs : List CellOutputModel
  getValue : String

/-- A document held by the notebook service, with its URI rendered to a
string (the source compares `document.uri.toString() === uri.toString()`). -/
structure NotebookDocumentModel where
  uri : String
  cells : List NotebookCellModel

/-! ## The backup codec (`controller.backup`, source lines 119-147)

`backup` finds the document by URI, maps every cell to a plain record,
`JSON.stringify`s `{cells}` into a `VSBuffer`, and returns the empty
string when the document is not found.  `JSON.stringify` omits a
property whose value is `undefined`, so the (misspelled) `mine` key is
absent when `cell.mime` is `undefined`. -/

def backupOutputItemJson (ot : OutputItemModel) : Json :=
  Json.obj [("mime", Json.str ot.mime),
            ("data", Json.arr (ot.data.map fun b => Json.num (b.val : Int)))]

def backupOutputJson (o : CellOutputModel) : Json :=
  Json.obj [("outputId", Json.str o.outputId),
            ("outputs", Json.arr (o.outputs.map backupOutputItemJson))]

/-- The record built for one cell by `controller.backup`.  The source
writes the cell's mime under the key `mine` (`mine: cell.mime`), not
`mime`; `JSON.stringify` drops the key when the value is `undefined`. -/
def backupCellJson (c : NotebookCellModel) : Json :=
  Json.obj ([("kind", Json.num (c.cellKind.toNat : Int)),
             ("language", Json.str c.language),
             ("metadata", c.metadata)]
    ++ (match c.mime with
        | some m => [("mine", Json.str m)]
        | none => [])
    ++ [("outputs", Json.arr (c.outputs.map backupOutputJson)),
        ("content", Json.str c.getValue)])

/-- The value returned by `controller.backup`: a `VSBuffer` holding the
stringified `{cells}` object (modelled by its JSON tree), or the empty
string `''` when the URI matches no notebook document. -/
inductive BackupResult where
  | buffer (j : Json) : BackupResult
  | emptyString : BackupResult

/-- The lookup `notebookService.listNotebookDocuments().find(document =>
document.uri.toString() === uri.toString())`. -/
def findDoc (docs : List NotebookDocumentModel) (uri : String) :
    Option NotebookDocumentModel :=
  docs.find? (fun d => d.uri == uri)

def controllerBackup (docs : List NotebookDocumentModel) (uri : String) :
    BackupResult :=
  match findDoc docs uri with
  | some doc =>
      BackupResult.buffer (Json.obj [("cells", Json.arr (doc.cells.map backupCellJson))])
  | none => BackupResult.emptyString

/-! ## The restore side (`controller.open`, source lines 73-110)

`open` only looks at a `VSBuffer` backup; it `JSON.parse`s its text and
maps `document.cells` to cell-data records inside a `try` block whose
`catch` (reached when the parse throws or any property mapping throws)
falls through to the empty document. -/

/-- A restored output item: `{mime: ot.mime, data: Uint8Array.from(ot.data)}`. -/
structure OpenOutputItem where
  mime : Option Json
  data : List (Fin 256)

/-- A restored cell output: `{outputId: output.outputId, outputs: …}`. -/
structure OpenCellOutputRec where
  outputId : Option Json
  outputs : List OpenOutputItem

/-- One restored cell-data record.  The source copies parsed JSON values
without validation, so the scalar fields are arbitrary parsed values
(`none` models `undefined`). -/
structure OpenCell where
  source : Option Json
  language : Option Json
  cellKind : Option Json
  mime : Option Json
  outputs : List OpenCellOutputRec
  metadata : Option Json

/-- The mapping of one parsed output item:
`{mime: ot.mime, data: Uint8Array.from(ot.data)}`. -/
def openOutputItem (ot : Json) : Except Unit OpenOutputItem := do
  let m ← getField ot "mime"
  let d ← getField ot "data"
  let bytes ← uint8ArrayFrom d
  pure { mime := m, data := bytes }

/-- The mapping of one parsed cell output:
`{outputId: output.outputId, outputs: output.outputs.map(…)}`; calling
`.map` on anything but an array throws. -/
def openOutput (o : Json) : Except Unit OpenCellOutputRec := do
  let oid ← getField o "outputId"
  let outsV ← getField o "outputs"
  match outsV with
  | some (Json.arr os) => do
      let items ← mapE openOutputItem os
      pure { outputId := oid, outputs := items }
  | _ => Except.error ()

/-- The mapping of one parsed cell record, in the source's field order:
`source: cell.content, language: cell.language, cellKind: cell.kind,
mime: cell.mime, outputs: cell.outputs ? cell.outputs.map(…) : [],
metadata: cell.metadata`. -/
def openCellRec (c : Json) : Except Unit OpenCell := do
  let src ← getField c "content"
  let lang ← getField c "language"
  let kind ← getField c "kind"
  let mim ← getField c "mime"
  let outsV ← getField c "outputs"
  let outs ←
    if truthy outsV then
      match outsV with
      | some (Json.arr os) => mapE openOutput os
      | _ => Except.error ()
    else pure []
  let md ← getField c "metadata"
  pure { source := src, language := lang, cellKind := kind, mime := mim,
         outputs := outs, metadata := md }

/-- The body of `open`'s try block: `document.cells.map(cell => …)`;
`document.cells` throws on a parsed `null` document, and `.map` throws
unless `cells` is an array. -/
def openDocCells (j : Json) : Except Unit (List OpenCell) := do
  let cellsV ← getField j "cells"
  match cellsV with
  | some (Json.arr cells) => mapE openCellRec cells
  | _ => Except.error ()

/-- The provider's mutable content options (`contentOptions`): initially
`{transientOutputs: true, transientCellMetadata: {}, transientDocumentMetadata: {}}`. -/
structure TransientOptionsModel where
  transientOutputs : Bool
  transientCellMetadata : Json
  transientDocumentMetadata : Json

def contentOptionsInit : TransientOptionsModel :=
  { transientOutputs := true
    transientCellMetadata := Json.obj []
    transientDocumentMetadata := Json.obj [] }

/-- The document-initialization payload returned by `open`:
`{metadata: {}, cells: …}`. -/
structure OpenData where
  metadata : Json
  cells : List OpenCell

structure OpenResult where
  data : OpenData
  transientOptions : TransientOptionsModel

/-- The `_backupId` argument of `open`, of type
`string | VSBuffer | undefined`.  A `VSBuffer` is carried as the result
of `JSON.parse` on its text: `none` when the text is not valid JSON
(the parse throws, landing in the `catch`). -/
inductive BackupId where
  | strVal (s : String) : BackupId
  | buffer (parsed : Option Json) : BackupId
  | undef : BackupId

/-- The empty-document result `open` falls through to. -/
def emptyOpenResult : OpenResult :=
  { data := { metadata := Json.obj [], cells := [] }
    transientOptions := contentOptionsInit }

/-- The provider's `open`: on a `VSBuffer` backup, parse and map the cells
inside `try { … } catch (_e) { }`; every other input, a parse failure or
a thrown mapping falls through to the empty document.  The function is
total: no error escapes. -/
def controllerOpen : BackupId → OpenResult
  | BackupId.buffer (some j) =>
      match openDocCells j with
      | Except.ok cells =>
          { data := { metadata := Json.obj [], cells := cells }
            transientOptions := contentOptionsInit }
      | Except.error _ => emptyOpenResult
  | BackupId.buffer none => emptyOpenResult
  | BackupId.strVal _ => emptyOpenResult
  | BackupId.undef => emptyOpenResult

/-! ## Round-trip lemmas for the codec -/

@[simp] lemma except_bind_ok (a : α) (f : α → Except Unit β) :
    (Except.ok a >>= f : Except Unit β) = f a := rfl

@[simp] lemma except_map_ok (f : α → β) (a : α) :
    (f <$> (Except.ok a : Except Unit α)) = Except.ok (f a) := rfl

/-- What `open` reconstructs from the backup of one output item. -/
def restoredOutputItem (ot : OutputItemModel) : OpenOutputItem :=
  { mime := some (Json.str ot.mime), data := ot.data }

/-- What `open` reconstructs from the backup of one cell output. -/
def restoredOutput (o : CellOutputModel) : OpenCellOutputRec :=
  { outputId := some (Json.str o.outputId)
    outputs := o.outputs.map restoredOutputItem }

/-- What `open` reconstructs from the backup of one cell.  The `mime`
field comes back `undefined` because `backup` wrote it under the key
`mine` while `open` reads `mime`. -/
def restoredCell (c : NotebookCellModel) : OpenCell :=
  { source := some (Json.str c.getValue)
    language := some (Json.str c.language)
    cellKind := some (Json.num (c.cellKind.toNat : Int))
    mime := none
    outputs := c.outputs.map restoredOutput
    metadata := some c.metadata }

lemma jsToUint8_byte (b : Fin 256) : jsToUint8 (Json.num (b.val : Int)) = b := by
  have hlt : (b.val : Int) < 256 := by exact_mod_cast b.isLt
  have hmod : (b.val : Int) % 256 = (b.val : Int) :=
    Int.emod_eq_of_lt (by positivity) hlt
  apply Fin.ext
  show ((b.val : Int) % 256).toNat = b.val
  rw [hmod]
  omega

lemma openOutputItem_backup (ot : OutputItemModel) :
    openOutputItem (backupOutputItemJson ot) = Except.ok (restoredOutputItem ot) := by
  simp only [openOutputItem, backupOutputItemJson, getField, jlookup,
    uint8ArrayFrom, restoredOutputItem, except_bind_ok, except_map_ok,
    List.map_map]
  have h : (jsToUint8 ∘ fun b : Fin 256 => Json.num (b.val : Int)) = id := by
    funext b
    exact jsToUint8_byte b
  simp [h]

lemma mapE_openOutputItem (l : List OutputItemModel) :
    mapE openOutputItem (l.map backupOutputItemJson) =
      Except.ok (l.map restoredOutputItem) := by
  induction l with
  | nil => simp [mapE]
  | cons x xs ih => simp [mapE, openOutputItem_backup, ih]

lemma openOutput_backup (o : CellOutputModel) :
    openOutput (backupOutputJson o) = Except.ok (restoredOutput o) := by
  simp [openOutput, backupOutputJson, getField, jlookup, mapE_openOutputItem,
    restoredOutput]

lemma mapE_openOutput (l : List CellOutputModel) :
    mapE openOutput (l.map backupOutputJson) = Except.ok (l.map restoredOutput) := by
  induction l with
  | nil => simp [mapE]
  | cons x xs ih => simp [mapE, openOutput_backup, ih]

lemma openCellRec_backup (c : NotebookCellModel) :
    openCellRec (backupCellJson c) = Except.ok (restoredCell c) := by
  cases hm : c.mime with
  | none =>
      simp [openCellRec, backupCellJson, hm, getField, jlookup, truthy,
        mapE_openOutput, restoredCell]
  | some m =>
      simp [openCellRec, backupCellJson, hm, getField, jlookup, truthy,
        mapE_openOutput, restoredCell]

lemma mapE_openCellRec (l : List NotebookCellModel) :
    mapE openCellRec (l.map backupCellJson) = Except.ok (l.map restoredCell) := by
  induction l with
  | nil => simp [mapE]
  | cons x xs ih => simp [mapE, openCellRec_backup, ih]

lemma restoredItems_forall₂ (items : List OutputItemModel) :
    List.Forall₂ (fun (ot : OutputItemModel) (rt : OpenOutputItem) =>
        rt.mime = some (Json.str ot.mime) ∧ rt.data = ot.data)
      items (items.map restoredOutputItem) := by
  induction items with
  | nil => exact List.Forall₂.nil
  | cons t ts ih => exact List.Forall₂.cons ⟨rfl, rfl⟩ ih

lemma restoredOutputs_forall₂ (outs : List CellOutputModel) :
    List.Forall₂ (fun (o : CellOutputModel) (ro : OpenCellOutputRec) =>
        ro.outputId = some (Json.str o.outputId) ∧
        List.Forall₂ (fun (ot : OutputItemModel) (rt : OpenOutputItem) =>
            rt.mime = some (Json.str ot.mime) ∧ rt.data = ot.data)
          o.outputs ro.outputs)
      outs (outs.map restoredOutput) := by
  induction outs with
  | nil => exact List.Forall₂.nil
  | cons o os ih =>
      exact List.Forall₂.cons ⟨rfl, restoredItems_forall₂ o.outputs⟩ ih

lemma restoredCells_forall₂ (cells : List NotebookCellModel) :
    List.Forall₂ (fun (c : NotebookCellModel) (r : OpenCell) =>
        r.cellKind = some (Json.num (c.cellKind.toNat : Int)) ∧
        r.language = some (Json.str c.language) ∧
        r.source = some (Json.str c.getValue) ∧
        List.Forall₂ (fun (o : CellOutputModel) (ro : OpenCellOutputRec) =>
            ro.outputId = some (Json.str o.outputId) ∧
            List.Forall₂ (fun (ot : OutputItemModel) (rt : OpenOutputItem) =>
                rt.mime = some (Json.str ot.mime) ∧ rt.data = ot.data)
              o.outputs ro.outputs)
          c.outputs r.outputs)
      cells (cells.map restoredCell) := by
  induction cells with
  | nil => exact List.Forall₂.nil
  | cons c cs ih =>
      exact List.Forall₂.cons ⟨rfl, rfl, rfl, restoredOutputs_forall₂ c.outputs⟩ ih

lemma controllerOpen_backup_doc (doc : NotebookDocumentModel) :
    controllerOpen (BackupId.buffer
        (some (Json.obj [("cells", Json.arr (doc.cells.map backupCellJson))]))) =
      { data := { metadata := Json.obj [], cells := doc.cells.map restoredCell }
        transientOptions := contentOptionsInit } := by
  simp [controllerOpen, openDocCells, getField, jlookup, mapE_openCellRec]

/-- C1: for a document registered with the notebook service, feeding the
buffer produced by `controller.backup` for its URI into `controller.open`
yields cells whose kind, language, source content and outputs (output id
and per-item mime and byte data) equal the original document's cells in
order; metadata and the transient flags are not part of the comparison. -/
theorem c1_backup_restore_roundtrip (docs : List NotebookDocumentModel)
    (uri : String) (doc : NotebookDocumentModel)
    (h : findDoc docs uri = some doc) :
    ∃ j, controllerBackup docs uri = BackupResult.buffer j ∧
      controllerOpen (BackupId.buffer (some j)) =
        { data := { metadata := Json.obj [], cells := doc.cells.map restoredCell }
          transientOptions := contentOptionsInit } ∧
      List.Forall₂ (fun (c : NotebookCellModel) (r : OpenCell) =>
          r.cellKind = some (Json.num (c.cellKind.toNat : Int)) ∧
          r.language = some (Json.str c.language) ∧
          r.source = some (Json.str c.getValue) ∧
          List.Forall₂ (fun (o : CellOutputModel) (ro : OpenCellOutputRec) =>
              ro.outputId = some (Json.str o.outputId) ∧
              List.Forall₂ (fun (ot : OutputItemModel) (rt : OpenOutputItem) =>
                  rt.mime = some (Json.str ot.mime) ∧ rt.data = ot.data)
                o.outputs ro.outputs)
            c.outputs r.outputs)
        doc.cells (controllerOpen (BackupId.buffer (some j))).data.cells := by
  refine ⟨Json.obj [("cells", Json.arr (doc.cells.map backupCellJson))], ?_, ?_, ?_⟩
  · unfold controllerBackup
    rw [h]
  · exact controllerOpen_backup_doc doc
  · rw [controllerOpen_backup_doc doc]
    exact restoredCells_forall₂ doc.cells

/-- The document of the spec's round-trip example: one cell
`{kind: Code, language: "python", content: "print(1)", outputs: []}`. -/
def pyCellModel : NotebookCellModel :=
  { cellKind := CellKind.code, language := "python", metadata := Json.obj []
    mime := none, outputs := [], getValue := "print(1)" }

def pyDocModel : NotebookDocumentModel :=
  { uri := "vscode-interactive:Interactive-1.interactive", cells := [pyCellModel] }

/-- C1 witness: the spec's example document, with the hypothesis that the
notebook service holds it discharged concretely. -/
theorem c1_backup_restore_roundtrip_witness :
    findDoc [pyDocModel] "vscode-interactive:Interactive-1.interactive" = some pyDocModel ∧
    (∃ j, controllerBackup [pyDocModel] "vscode-interactive:Interactive-1.interactive" =
        BackupResult.buffer j ∧
      controllerOpen (BackupId.buffer (some j)) =
        { data := { metadata := Json.obj []
                    cells := pyDocModel.cells.map restoredCell }
          transientOptions := contentOptionsInit } ∧
      List.Forall₂ (fun (c : NotebookCellModel) (r : OpenCell) =>
          r.cellKind = some (Json.num (c.cellKind.toNat : Int)) ∧
          r.language = some (Json.str c.language) ∧
          r.source = some (Json.str c.getValue) ∧
          List.Forall₂ (fun (o : CellOutputModel) (ro : OpenCellOutputRec) =>
              ro.outputId = some (Json.str o.outputId) ∧
              List.Forall₂ (fun (ot : OutputItemModel) (rt : OpenOutputItem) =>
                  rt.mime = some (Json.str ot.mime) ∧ rt.data = ot.data)
                o.outputs ro.outputs)
            c.outputs r.outputs)
        pyDocModel.cells (controllerOpen (BackupId.buffer (some j))).data.cells) :=
  ⟨rfl, c1_backup_restore_roundtrip [pyDocModel] _ pyDocModel rfl⟩

/-- A cell whose `mime` is set, exhibiting the `mine`/`mime` key typo. -/
def mimeCellModel : NotebookCellModel :=
  { cellKind := CellKind.code, language := "python", metadata := Json.obj []
    mime := some "text/x-python", outputs := [], getValue := "print(1)" }

def mimeDocModel : NotebookDocumentModel :=
  { uri := "u", cells := [mimeCellModel] }

/-- C2: the full CellRecord shape does NOT round-trip losslessly: the
backup of a cell whose mime is `"text/x-python"` restores to a cell whose
mime is `undefined`, because `controller.backup` writes the mime under
the key `mine` (source line 126, `mine: cell.mime`) while
`controller.open` reads the key `mime` (source line 85). -/
theorem c2_mime_dropped_on_roundtrip :
    mimeCellModel.mime = some "text/x-python" ∧
    ∃ j, controllerBackup [mimeDocModel] "u" = BackupResult.buffer j ∧
      (controllerOpen (BackupId.buffer (some j))).data.cells.map OpenCell.mime =
        [none] := by
  refine ⟨rfl, Json.obj [("cells", Json.arr (mimeDocModel.cells.map backupCellJson))],
    rfl, ?_⟩
  rw [controllerOpen_backup_doc mimeDocModel]
  rfl

/-- C6: restoring from a buffer whose text is not valid JSON
(`JSON.parse` throws, `none` in the model) yields zero cells and empty
metadata; `controllerOpen` is total, so no error propagates. -/
theorem c6_invalid_json_restores_empty :
    (controllerOpen (BackupId.buffer none)).data.cells = [] ∧
    (controllerOpen (BackupId.buffer none)).data.metadata = Json.obj [] :=
  ⟨rfl, rfl⟩

/-- C7: `controller.backup` with a URI matching no notebook document
returns the empty result (the source's `return ''`) instead of failing;
`controllerBackup` is total, so no error is raised. -/
theorem c7_backup_unknown_doc (docs : List NotebookDocumentModel) (uri : String)
    (h : ∀ d ∈ docs, d.uri ≠ uri) :
    controllerBackup docs uri = BackupResult.emptyString := by
  unfold controllerBackup findDoc
  have hnone : docs.find? (fun d => d.uri == uri) = none := by
    rw [List.find?_eq_none]
    intro d hd
    simpa using h d hd
  rw [hnone]

/-- C7 witness: a service holding only the example document, asked to
back up a different URI. -/
theorem c7_backup_unknown_doc_witness :
    (∀ d ∈ [pyDocModel], d.uri ≠ "vscode-interactive:Interactive-2.interactive") ∧
    controllerBackup [pyDocModel] "vscode-interactive:Interactive-2.interactive" =
      BackupResult.emptyString := by
  have h : ∀ d ∈ [pyDocModel], d.uri ≠ "vscode-interactive:Interactive-2.interactive" := by
    intro d hd
    simp only [List.mem_singleton] at hd
    subst hd
    decide
  exact ⟨h, c7_backup_unknown_doc [pyDocModel] _ h⟩

/-! ## History store and commands

The `InteractiveHistoryService` lives in
`interactiveHistoryService.ts`, which is not under `src/`; it is
modelled from the spec (§4.1): a per-document ordered log of submitted
strings with a navigation cursor. -/

/-- Modelled from the spec: the History Store state for one document of
the `IInteractiveHistoryService` (its implementation is not under
`src/`).  `log` is the ordered log of submitted strings; `cursor` is
`none` at the bottom boundary and `some i` at log position `i`. -/
structure HistoryState where
  log : List String
  cursor : Option Nat

/-- Modelled from the spec: `addToHistory` appends the text to the log
and resets the cursor to the bottom boundary. -/
def addToHistory (h : HistoryState) (text : String) : HistoryState :=
  { log := h.log ++ [text], cursor := none }

/-- Modelled from the spec: `clearHistory` discards the log and resets
the cursor. -/
def clearHistory (_h : HistoryState) : HistoryState :=
  { log := [], cursor := none }

/-- Modelled from the spec: `getPreviousValue` — at the bottom boundary
move to the last entry and return it (nothing on an empty log); at entry
`i > 0` step to `i - 1` and return that entry; at the first entry stay
put and return nothing. -/
def getPreviousValue (h : HistoryState) : Option String × HistoryState :=
  match h.cursor with
  | none =>
      if h.log.isEmpty then (none, h)
      else (h.log.getLast?, { h with cursor := some (h.log.length - 1) })
  | some i =>
      if i = 0 then (none, h)
      else (h.log[i - 1]?, { h with cursor := some (i - 1) })

/-- Modelled from the spec: `getNextValue` — at the bottom boundary
return nothing; at entry `i` step to `i + 1` and return that entry, or
return nothing and move to the bottom boundary when stepping past the
last entry. -/
def getNextValue (h : HistoryState) : Option String × HistoryState :=
  match h.cursor with
  | none => (none, h)
  | some i =>
      if i + 1 < h.log.length then (h.log[i + 1]?, { h with cursor := some (i + 1) })
      else (none, { h with cursor := none })

/-- The cell-data record inserted by `interactive.execute`:
`{cellKind: CellKind.Code, mime: undefined, language, source: value,
outputs: [], metadata: {}}`. -/
structure CellDto where
  cellKind : CellKind
  mime : Option String
  language : String
  source : String
  outputs : List CellOutputModel
  metadata : Json

/-- The state a command acts on once its guards
(`editorControl && editorControl.notebookEditor && editorControl.codeEditor`
and `notebookDocument && textModel`) have passed: the active interactive
editor's notebook document (URI and cell list), the input pane's text
model, the history state for that URI, and the observed arguments of the
`addToHistory` calls made so far. -/
structure InteractiveState where
  notebookUri : String
  notebookCells : List CellDto
  inputText : String
  history : HistoryState
  historyCalls : List (String × String)

/-- Modelled from the spec: the bulk-edit service applying one
`ResourceNotebookCellEdit` with `editType: CellEditType.Replace` replaces
`count` cells at `index` by the given cells; with `count: 0` it inserts
them at `index` (§6: "appends it as a new executable cell").  The
service itself is outside `src/`. -/
def applyCellReplace (cells : List CellDto) (index count : Nat)
    (newCells : List CellDto) : List CellDto :=
  cells.take index ++ newCells ++ cells.drop (index + count)

/-- The `interactive.execute` run body (source lines 302-342):
`index = notebookDocument.length`, `value = textModel.getValue()`,
`historyService.addToHistory(notebookDocument.uri, '')`,
`textModel.setValue('')`, then the bulk edit inserting one Code cell at
`index`.  `language` is `activeKernel?.supportedLanguages[0] ?? 'plaintext'`.
Cell execution and revealing (lines 338-339) do not change the modelled
state. -/
def executeRun (st : InteractiveState) (activeKernelLangs : Option (List String)) :
    InteractiveState :=
  let language := ((activeKernelLangs.bind fun ls => ls.head?).getD "plaintext")
  let index := st.notebookCells.length
  let value := st.inputText
  let st1 := { st with history := addToHistory st.history ""
                       historyCalls := st.historyCalls ++ [(st.notebookUri, "")] }
  let st2 := { st1 with inputText := "" }
  { st2 with
      notebookCells :=
        applyCellReplace st2.notebookCells index 0
          [{ cellKind := CellKind.code, mime := none, language := language
             source := value, outputs := [], metadata := Json.obj [] }] }

/-- The `interactive.history.previous` run body (source lines 364-381):
fetch the previous value and `textModel.setValue(previousValue)` only
when it is truthy (`if (previousValue)`), i.e. present and non-empty. -/
def historyPrevRun (st : InteractiveState) : InteractiveState :=
  let r := getPreviousValue st.history
  let st1 := { st with history := r.snd }
  match r.fst with
  | some s => if s = "" then st1 else { st1 with inputText := s }
  | none => st1

/-- The `interactive.history.next` run body (source lines 402-419),
with the same truthiness guard. -/
def historyNextRun (st : InteractiveState) : InteractiveState :=
  let r := getNextValue st.history
  let st1 := { st with history := r.snd }
  match r.fst with
  | some s => if s = "" then st1 else { st1 with inputText := s }
  | none => st1

/-- C3 fails on the code: with an active interactive editor whose input
pane holds `"print(1)"`, the string passed to `addToHistory` for the
notebook's URI is `''` (source line 317,
`historyService.addToHistory(notebookDocument.uri, '')`), not the
submitted text; the submitted text is never handed to the history
service. -/
theorem c3_execute_records_empty_string :
    (executeRun
        { notebookUri := "vscode-interactive:Interactive-1.interactive"
          notebookCells := [], inputText := "print(1)"
          history := { log := [], cursor := none }, historyCalls := [] }
        none).historyCalls =
      [("vscode-interactive:Interactive-1.interactive", "")] ∧
    ("" : String) ≠ "print(1)" :=
  ⟨rfl, by decide⟩

/-- C4: `interactive.execute` with a notebook of `n` cells and input-pane
text `v` appends exactly one cell of kind Code with source `v` at index
`n` (the end of the document) and sets the input pane's text to the
empty string. -/
theorem c4_execute_appends_and_clears (st : InteractiveState)
    (activeKernelLangs : Option (List String)) :
    (executeRun st activeKernelLangs).notebookCells =
      st.notebookCells ++
        [{ cellKind := CellKind.code, mime := none
           language := ((activeKernelLangs.bind fun ls => ls.head?).getD "plaintext")
           source := st.inputText, outputs := [], metadata := Json.obj [] }] ∧
    (executeRun st activeKernelLangs).inputText = "" := by
  constructor
  · simp [executeRun, applyCellReplace]
  · rfl

/-- C8: when the History Store returns no value in the requested
direction, `interactive.history.previous` / `interactive.history.next`
leave the input pane's text unchanged; the run bodies are total, so the
commands complete without surfacing an error. -/
theorem c8_history_exhausted_noop (st : InteractiveState) :
    ((getPreviousValue st.history).fst = none →
      (historyPrevRun st).inputText = st.inputText) ∧
    ((getNextValue st.history).fst = none →
      (historyNextRun st).inputText = st.inputText) := by
  constructor
  · intro h
    unfold historyPrevRun
    dsimp only
    rw [h]
  · intro h
    unfold historyNextRun
    dsimp only
    rw [h]

/-- C8 witness: a history of one entry with the cursor already at the
first entry, exhausted in both directions. -/
theorem c8_history_exhausted_noop_witness :
    (getPreviousValue { log := ["x"], cursor := some 0 }).fst = none ∧
    (historyPrevRun
        { notebookUri := "u", notebookCells := [], inputText := "keep"
          history := { log := ["x"], cursor := some 0 }, historyCalls := [] }).inputText =
      "keep" ∧
    (getNextValue { log := ["x"], cursor := some 0 }).fst = none ∧
    (historyNextRun
        { notebookUri := "u", notebookCells := [], inputText := "keep"
          history := { log := ["x"], cursor := some 0 }, historyCalls := [] }).inputText =
      "keep" :=
  ⟨rfl,
   (c8_history_exhausted_noop
      { notebookUri := "u", notebookCells := [], inputText := "keep"
        history := { log := ["x"], cursor := some 0 }, historyCalls := [] }).1 rfl,
   rfl,
   (c8_history_exhausted_noop
      { notebookUri := "u", notebookCells := [], inputText := "keep"
        history := { log := ["x"], cursor := some 0 }, historyCalls := [] }).2 rfl⟩

/-- C9: when the History Store returns the empty string, the commands
also leave the input pane's text unchanged — `if (previousValue)` guards
by truthiness, and the empty string is falsy, so an empty-string entry is
indistinguishable from no entry at the command level. -/
theorem c9_empty_entry_indistinguishable (st : InteractiveState) :
    ((getPreviousValue st.history).fst = some "" →
      (historyPrevRun st).inputText = st.inputText) ∧
    ((getNextValue st.history).fst = some "" →
      (historyNextRun st).inputText = st.inputText) := by
  constructor
  · intro h
    unfold historyPrevRun
    dsimp only
    rw [h]
    rfl
  · intro h
    unfold historyNextRun
    dsimp only
    rw [h]
    rfl

/-- C9 witness: a log whose last entry is the empty string (previous
direction) and a log with an empty string after the cursor (next
direction); the text is unchanged in both runs. -/
theorem c9_empty_entry_indistinguishable_witness :
    (getPreviousValue { log := [""], cursor := none }).fst = some "" ∧
    (historyPrevRun
        { notebookUri := "u", notebookCells := [], inputText := "keep"
          history := { log := [""], cursor := none }, historyCalls := [] }).inputText =
      "keep" ∧
    (getNextValue { log := ["a", ""], cursor := some 0 }).fst = some "" ∧
    (historyNextRun
        { notebookUri := "u", notebookCells := [], inputText := "keep"
          history := { log := ["a", ""], cursor := some 0 }, historyCalls := [] }).inputText =
      "keep" :=
  ⟨rfl,
   (c9_empty_entry_indistinguishable
      { notebookUri := "u", notebookCells := [], inputText := "keep"
        history := { log := [""], cursor := none }, historyCalls := [] }).1 rfl,
   rfl,
   (c9_empty_entry_indistinguishable
      { notebookUri := "u", notebookCells := [], inputText := "keep"
        history := { log := ["a", ""], cursor := some 0 }, historyCalls := [] }).2 rfl⟩

/-! ## Fresh-identifier minting (`interactive.open` run, source lines 257-272)

The command collects `editor.editor.resource.toString()` for every open
editor into a set, then runs
`counter = 1; do { mint both URIs; counter++ } while (set.has(notebookUri.toString()))`.
URI rendering for `URI.from({scheme, path})` is `scheme + ':' + path`,
and the template `Interactive-${counter}` prints the counter in
decimal. -/

/-- The decimal digit character for a digit value (`'0'` has code 48). -/
def digitChar (d : Nat) : Char := Char.ofNat (48 + d)

/-- JavaScript decimal rendering of a natural: most-significant digit
first, `"0"` for zero. -/
def decimalChars (n : Nat) : List Char :=
  if n = 0 then ['0'] else (Nat.digits 10 n).reverse.map digitChar

def decimalStr (n : Nat) : String := String.mk (decimalChars n)

lemma decimalStr_data (n : Nat) : (decimalStr n).data = decimalChars n := rfl

lemma digitChar_inj : ∀ a < 10, ∀ b < 10, digitChar a = digitChar b → a = b := by
  decide

lemma map_digitChar_inj :
    ∀ {l1 l2 : List Nat}, (∀ d ∈ l1, d < 10) → (∀ d ∈ l2, d < 10) →
      l1.map digitChar = l2.map digitChar → l1 = l2 := by
  intro l1
  induction l1 with
  | nil =>
      intro l2 _ _ h
      cases l2 with
      | nil => rfl
      | cons b bs => simp at h
  | cons a as ih =>
      intro l2 h1 h2 h
      cases l2 with
      | nil => simp at h
      | cons b bs =>
          simp only [List.map_cons, List.cons.injEq] at h
          have hab : a = b :=
            digitChar_inj a (h1 a (by simp)) b (h2 b (by simp)) h.1
          have htail :=
            ih (fun d hd => h1 d (by simp [hd])) (fun d hd => h2 d (by simp [hd])) h.2
          rw [hab, htail]

lemma decimalChars_inj {m n : Nat} (h : decimalChars m = decimalChars n) : m = n := by
  have hd10 : ∀ k : Nat, ∀ d ∈ (Nat.digits 10 k).reverse, d < 10 := by
    intro k d hd
    exact Nat.digits_lt_base (by omega) (List.mem_reverse.mp hd)
  have hof : ∀ k : Nat, Nat.digits 10 k = [0] → k = 0 := by
    intro k hk
    have := Nat.ofDigits_digits 10 k
    rw [hk] at this
    simpa [Nat.ofDigits] using this.symm
  unfold decimalChars at h
  by_cases hm : m = 0 <;> by_cases hn : n = 0
  · omega
  · simp only [hm, if_pos rfl, if_neg hn] at h
    have h0 : (Nat.digits 10 n).reverse.map digitChar = ([0] : List Nat).map digitChar := by
      rw [← h]
      rfl
    have := map_digitChar_inj (hd10 n) (by simp) h0
    have hdig : Nat.digits 10 n = [0] := by
      have := congrArg List.reverse this
      simpa using this
    exact absurd (hof n hdig) hn
  · simp only [hn, if_pos rfl, if_neg hm] at h
    have h0 : (Nat.digits 10 m).reverse.map digitChar = ([0] : List Nat).map digitChar := by
      rw [h]
      rfl
    have := map_digitChar_inj (hd10 m) (by simp) h0
    have hdig : Nat.digits 10 m = [0] := by
      have := congrArg List.reverse this
      simpa using this
    exact absurd (hof m hdig) hm
  · simp only [if_neg hm, if_neg hn] at h
    have := map_digitChar_inj (hd10 m) (hd10 n) h
    have hdig : Nat.digits 10 m = Nat.digits 10 n := by
      have := congrArg List.reverse this
      simpa using this
    have h1 := Nat.ofDigits_digits 10 m
    have h2 := Nat.ofDigits_digits 10 n
    rw [hdig] at h1
    omega

/-- The string of `URI.from({scheme: Schemas.vscodeInteractive, path:
`Interactive-${counter}.interactive`}).toString()`. -/
def notebookUriStr (n : Nat) : String :=
  "vscode-interactive:Interactive-" ++ decimalStr n ++ ".interactive"

/-- The string of `URI.from({scheme: Schemas.vscodeInteractiveInput, path:
`InteractiveInput-${counter}`}).toString()`. -/
def inputUriStr (n : Nat) : String :=
  "vscode-interactive-input:InteractiveInput-" ++ decimalStr n

lemma notebookUriStr_inj : Function.Injective notebookUriStr := by
  intro m n h
  apply decimalChars_inj
  have hd := congrArg String.data h
  simp only [notebookUriStr, String.data_append, decimalStr_data] at hd
  have h1 := List.append_cancel_right hd
  exact List.append_cancel_left h1

/-- The do-while loop of the `interactive.open` run: mint both URIs from
`counter`, increment, and repeat while the set of open-editor resource
strings contains the notebook URI.  The source loop always terminates
because only finitely many resources are open; the model carries fuel
`existing.length + 1`, which `mintLoop_spec` shows is enough. -/
def mintLoop (existing : List String) : Nat → Nat → String × String × Nat
  | 0, counter => (notebookUriStr counter, inputUriStr counter, counter)
  | fuel + 1, counter =>
      if notebookUriStr counter ∈ existing then mintLoop existing fuel (counter + 1)
      else (notebookUriStr counter, inputUriStr counter, counter)

/-- The fresh-mint path of the `interactive.open` run: the loop starting
at `counter = 1` over the resource strings of the currently open
editors. -/
def interactiveOpenMint (existing : List String) : String × String × Nat :=
  mintLoop existing (existing.length + 1) 1

lemma mintLoop_spec (existing : List String) :
    ∀ fuel counter, (∃ k, k < fuel ∧ notebookUriStr (counter + k) ∉ existing) →
      ∃ n, mintLoop existing fuel counter = (notebookUriStr n, inputUriStr n, n) ∧
        counter ≤ n ∧ notebookUriStr n ∉ existing ∧
        ∀ m, counter ≤ m → m < n → notebookUriStr m ∈ existing := by
  intro fuel
  induction fuel with
  | zero =>
      rintro counter ⟨k, hk, _⟩
      omega
  | succ fuel ih =>
      rintro counter ⟨k, hk, hfree⟩
      by_cases hmem : notebookUriStr counter ∈ existing
      · have hk0 : k ≠ 0 := by
          rintro rfl
          exact hfree hmem
        have hshift : counter + 1 + (k - 1) = counter + k := by omega
        obtain ⟨n, heq, hle, hnfree, hall⟩ :=
          ih (counter + 1) ⟨k - 1, by omega, by rw [hshift]; exact hfree⟩
        refine ⟨n, ?_, by omega, hnfree, ?_⟩
        · simpa [mintLoop, hmem] using heq
        · intro m hm1 hm2
          rcases Nat.eq_or_lt_of_le hm1 with h | h
          · rw [← h]
            exact hmem
          · exact hall m h hm2
      · refine ⟨counter, by simp [mintLoop, hmem], Nat.le_refl _, hmem, ?_⟩
        intro m hm1 hm2
        omega

lemma exists_unused (existing : List String) :
    ∃ k, k < existing.length + 1 ∧ notebookUriStr (1 + k) ∉ existing := by
  by_contra hall
  push_neg at hall
  have hsub : (Finset.range (existing.length + 1)).image
      (fun k => notebookUriStr (1 + k)) ⊆ existing.toFinset := by
    intro x hx
    simp only [Finset.mem_image, Finset.mem_range] at hx
    obtain ⟨k, hk, rfl⟩ := hx
    exact List.mem_toFinset.mpr (hall k hk)
  have hinj : Function.Injective (fun k : Nat => notebookUriStr (1 + k)) := by
    intro a b hab
    have := notebookUriStr_inj hab
    omega
  have hcard := Finset.card_le_card hsub
  rw [Finset.card_image_of_injective _ hinj, Finset.card_range] at hcard
  have := existing.toFinset_card_le
  omega

/-- C5: on the fresh-mint path of `interactive.open`, the chosen suffix
`n` is the smallest positive integer whose notebook URI string is not
among the resource strings of the currently open editors, and both
returned URIs (`vscode-interactive:Interactive-<n>.interactive` and
`vscode-interactive-input:InteractiveInput-<n>`) carry that same `n`. -/
theorem c5_mint_smallest_unused (existing : List String) :
    ∃ n, 1 ≤ n ∧
      interactiveOpenMint existing = (notebookUriStr n, inputUriStr n, n) ∧
      notebookUriStr n ∉ existing ∧
      ∀ m, 1 ≤ m → m < n → notebookUriStr m ∈ existing := by
  obtain ⟨k, hk, hfree⟩ := exists_unused existing
  obtain ⟨n, heq, hle, hnfree, hall⟩ :=
    mintLoop_spec existing (existing.length + 1) 1 ⟨k, hk, hfree⟩
  exact ⟨n, hle, heq, hnfree, hall⟩

/-! ## `InteractiveEditorSerializer` (source lines 172-199)

`serialize` stringifies `{resource: input.primary.resource,
inputResource: input.inputResource}` with the marshalling writer;
`deserialize` parses with the marshalling `parse` (which revives URI
objects), returns `undefined` when the payload is falsy or either field
is not a URI, and otherwise calls `InteractiveEditorInput.create`.  The
marshalling pair is the identity on the written record, so the record is
carried structurally; `deserialize`'s argument is `none` when `parse`
yields a falsy value. -/

/-- A field of the parsed payload: either a revived `URI` (here a URI
string) or some other parsed value, which `URI.isUri` rejects. -/
inductive MarshValue where
  | uriVal (u : String) : MarshValue
  | plain (j : Json) : MarshValue

/-- The check `URI.isUri` on a possibly-`undefined` parsed field. -/
def isUriV : Option MarshValue → Bool
  | some (MarshValue.uriVal _) => true
  | _ => false

/-- The destructured payload `{resource, inputResource}`; `none` fields
model `undefined` (absent keys). -/
structure ParsedEditorData where
  resource : Option MarshValue
  inputResource : Option MarshValue

/-- Modelled from the spec: `InteractiveEditorInput.create(service,
resource, inputResource)` (the class is not under `src/`) yields an
editor input whose primary resource is `resource` and whose
`inputResource` is `inputResource`. -/
structure InteractiveEditorInputModel where
  resource : String
  inputResource : String

def createInput (resource inputResource : String) : InteractiveEditorInputModel :=
  { resource := resource, inputResource := inputResource }

/-- The serializer's `serialize`: the marshalled record
`{resource: input.primary.resource, inputResource: input.inputResource}`. -/
def serializeInput (inp : InteractiveEditorInputModel) : ParsedEditorData :=
  { resource := some (MarshValue.uriVal inp.resource)
    inputResource := some (MarshValue.uriVal inp.inputResource) }

/-- The serializer's `deserialize`: `undefined` on a falsy
parse result (`none`) and whenever `!URI.isUri(resource) ||
!URI.isUri(inputResource)`; otherwise
`InteractiveEditorInput.create(…, resource, inputResource)`. -/
def deserializeInput : Option ParsedEditorData → Option InteractiveEditorInputModel
  | none => none
  | some d =>
      match d.resource, d.inputResource with
      | some (MarshValue.uriVal r), some (MarshValue.uriVal i) =>
          some (createInput r i)
      | _, _ => none

/-- C10: deserializing the serialized form of any editor input yields an
input with the same primary resource and input resource; a missing
payload deserializes to `undefined`, and so does any payload either of
whose fields is not a URI — both without throwing (`deserializeInput` is
total). -/
theorem c10_serializer_roundtrip (inp : InteractiveEditorInputModel)
    (d : ParsedEditorData)
    (h : isUriV d.resource = false ∨ isUriV d.inputResource = false) :
    deserializeInput (some (serializeInput inp)) =
      some (createInput inp.resource inp.inputResource) ∧
    deserializeInput none = none ∧
    deserializeInput (some d) = none := by
  refine ⟨rfl, rfl, ?_⟩
  obtain ⟨r, i⟩ := d
  rcases h with h | h
  · cases r with
    | none => cases i with
      | none => rfl
      | some v => cases v <;> rfl
    | some v =>
        cases v with
        | uriVal u => simp [isUriV] at h
        | plain j => cases i with
          | none => rfl
          | some w => cases w <;> rfl
  · cases i with
    | none => cases r with
      | none => rfl
      | some v => cases v <;> rfl
    | some v =>
        cases v with
        | uriVal u => simp [isUriV] at h
        | plain j => cases r with
          | none => rfl
          | some w => cases w <;> rfl

/-- C10 witness: a concrete input round-trips, and a payload whose
`resource` is the parsed number 3 deserializes to `undefined`. -/
theorem c10_serializer_roundtrip_witness :
    (isUriV (some (MarshValue.plain (Json.num 3))) = false ∨
      isUriV (some (MarshValue.uriVal "vscode-interactive-input:InteractiveInput-1")) = false) ∧
    (deserializeInput (some (serializeInput
        (createInput "vscode-interactive:Interactive-1.interactive"
          "vscode-interactive-input:InteractiveInput-1"))) =
      some (createInput "vscode-interactive:Interactive-1.interactive"
          "vscode-interactive-input:InteractiveInput-1") ∧
    deserializeInput none = none ∧
    deserializeInput (some
        { resource := some (MarshValue.plain (Json.num 3))
          inputResource :=
            some (MarshValue.uriVal "vscode-interactive-input:InteractiveInput-1") }) =
      none) :=
  ⟨Or.inl rfl,
   c10_serializer_roundtrip
     (createInput "vscode-interactive:Interactive-1.interactive"
        "vscode-interactive-input:InteractiveInput-1")
     { resource := some (MarshValue.plain (Json.num 3))
       inputResource :=
         some (MarshValue.uriVal "vscode-interactive-input:InteractiveInput-1") }
     (Or.inl rfl)⟩

/-- C4 witness: an empty notebook with input `"print(1)"` and a kernel
supporting python ends with exactly the one appended Code cell and a
cleared input pane. -/
theorem c4_execute_appends_and_clears_witness :
    (executeRun
        { notebookUri := "vscode-interactive:Interactive-1.interactive"
          notebookCells := [], inputText := "print(1)"
          history := { log := [], cursor := none }, historyCalls := [] }
        (some ["python"])).notebookCells =
      [{ cellKind := CellKind.code, mime := none, language := "python"
         source := "print(1)", outputs := [], metadata := Json.obj [] }] ∧
    (executeRun
        { notebookUri := "vscode-interactive:Interactive-1.interactive"
          notebookCells := [], inputText := "print(1)"
          history := { log := [], cursor := none }, historyCalls := [] }
        (some ["python"])).inputText = "" :=
  c4_execute_appends_and_clears
    { notebookUri := "vscode-interactive:Interactive-1.interactive"
      notebookCells := [], inputText := "print(1)"
      history := { log := [], cursor := none }, historyCalls := [] }
    (some ["python"])

/-- C5 witness: with no open editors the minted suffix is the least
positive integer not in use. -/
theorem c5_mint_smallest_unused_witness :
    ∃ n, 1 ≤ n ∧
      interactiveOpenMint [] = (notebookUriStr n, inputUriStr n, n) ∧
      notebookUriStr n ∉ ([] : List String) ∧
      ∀ m, 1 ≤ m → m < n → notebookUriStr m ∈ ([] : List String) :=
  c5_mint_smallest_unused []
